import Mathlib

/-!
Verification development for the TeactN global-state propagation engine
(`src/lib/teact/teactn.tsx`).

The embedding models the production path of the module (the `DEBUG` build
flag from `config` is taken as `false`; the spec classifies the debug
branches as optional instrumentation outside the functional contract).
Module-level mutable variables (`currentGlobal`, `forceOnHeavyAnimation`,
`actionQueue`, `containers`) become fields of an explicit `Sys` record and
every function threads that record.  External collaborators whose sources
are outside the excerpt are modelled from the spec where noted
(`throttleWithTickEnd`, `getIsHeavyAnimating`, `handleError`,
`arePropsShallowEqual`).
-/

namespace TeactN

/-- A JavaScript value as far as the state cell is concerned: either
`undefined` or an object carrying its reference identity.  Reference
equality of objects is equality of the identity tag. -/
inductive JVal where
  | undef
  | obj (id : Nat)
deriving DecidableEq, Repr

/-- The `typeof newGlobal === 'object'` test of `setUntypedGlobal`. -/
def isObjectJ : JVal → Bool
  | .undef => false
  | .obj _ => true

/-- A props object: enumerable string keys mapped to (identities of)
values, as produced by `mapStateToProps`. -/
abbrev Props := List (String × Nat)

/-- Key lookup in a props object. -/
def lookupProp (ps : Props) (k : String) : Option Nat :=
  (ps.find? (fun kv => kv.1 == k)).map (fun kv => kv.2)

/-- Modelled from the spec: `arePropsShallowEqual`
(`src/util/arePropsShallowEqual`, outside the excerpt) compares two props
objects shallowly over all enumerable fields — equal iff they have the
same key set and every key maps to the same value. -/
def arePropsShallowEqual (a b : Props) : Bool :=
  a.all (fun kv => lookupProp b kv.1 == some kv.2)
    && b.all (fun kv => lookupProp a kv.1 == some kv.2)

/-- The interaction of an `activationFn` with its `stickToFirst` callback,
as a decision tree: either finish with a boolean, or pass a candidate
value (`none` models a falsy candidate) to `stickToFirst` and continue
depending on the returned boolean. -/
inductive ActScript where
  | done (b : Bool)
  | call (cand : Option String) (k : Bool → ActScript)

/-- Options record of `setUntypedGlobal` / dispatched actions (an absent
options argument is the record with all fields `false`). -/
structure ActionOptions where
  forceOnHeavyAnimation : Bool := false
  forceSyncOnIOs : Bool := false
  forceOutdated : Bool := false
deriving DecidableEq, Repr

/-- One pending dispatch: the data captured by the closure that
`handleAction` pushes onto `actionQueue`. -/
structure DispatchCall where
  name : String
  payload : Option Nat := none
  options : ActionOptions := {}
deriving DecidableEq, Repr

/-- Observable events of a run, in order: a recompute pass ran
(`callbacks.forEach` reached), a container's `forceUpdate` was invoked, an
error was reported via `handleError`, a handler for an action ran to
completion. -/
inductive Event where
  | passRan
  | notify (cid : Nat)
  | reported
  | ranHandler (name : String) (idx : Nat)
deriving DecidableEq, Repr

/-- A registered subscriber record (`Container` in the source).  The
`forceUpdate` callback is modelled by emitting a `notify cid` event. -/
structure Container where
  cid : Nat
  mapStateToProps : JVal → Props → Except Unit Props
  activationFn : Option (JVal → Props → ActScript)
  stuckTo : Option String := none
  ownProps : Props := []
  mappedProps : Props := []

/-- The module state: every module-level mutable variable of the source,
plus the state of the modelled collaborators (`pendingTick` is the pending
flag of `throttleWithTickEnd`, `onceIdle` the one-shot idle registration
of `getIsHeavyAnimating.once`, `gateBusy` the animation collaborator's
busy report) and the event trace. -/
structure Sys where
  currentGlobal : JVal
  forceOnHeavyAnimation : Bool
  pendingTick : Bool
  onceIdle : Bool
  gateBusy : Bool
  containers : List Container
  actionQueue : List DispatchCall
  events : List Event

/-- Initial module state: `currentGlobal = { isInited: false }` (object
identity 0), `forceOnHeavyAnimation = true`, empty queue, no containers. -/
def initialSys : Sys where
  currentGlobal := .obj 0
  forceOnHeavyAnimation := true
  pendingTick := false
  onceIdle := false
  gateBusy := false
  containers := []
  actionQueue := []
  events := []

/-- The `stickToFirst` closure of `activateContainer`, run over a whole
activation script.  `snapshot` is the `stuckTo` destructured once at the
start of `activateContainer`; `stuck` is the live `container.stuckTo`
field being mutated. -/
def runScript (snapshot : Option String) : ActScript → Option String → Option String × Bool
  | .done b, stuck => (stuck, b)
  | .call cand k, stuck =>
    let stuck2 := if cand.isSome && snapshot.isNone then cand else stuck
    let r := cand.isSome && (snapshot.isNone || snapshot == cand)
    runScript snapshot (k r) stuck2

/-- `activateContainer` from the source: no `activationFn` means always
active; otherwise run the activation function with the `stickToFirst`
closure, returning the updated container and its activation result. -/
def activateContainer (c : Container) (g : JVal) (props : Props) : Container × Bool :=
  match c.activationFn with
  | none => (c, true)
  | some f =>
    let r := runScript c.stuckTo (f g props) c.stuckTo
    ({ c with stuckTo := r.1 }, r.2)

/-- The loop body of `updateContainers` over the registered containers, in
registration order.  Returns the updated containers, the emitted events,
and whether the pass aborted on a throwing mapper (`handleError` + early
`return`). -/
def updateLoop (g : JVal) : List Container → List Container × List Event × Bool
  | [] => ([], [], false)
  | c :: rest =>
    let a := activateContainer c g c.ownProps
    if !a.2 then
      let r := updateLoop g rest
      (a.1 :: r.1, r.2.1, r.2.2)
    else
      match a.1.mapStateToProps g a.1.ownProps with
      | .error _ => (a.1 :: rest, [.reported], true)
      | .ok newProps =>
        if !newProps.isEmpty && !arePropsShallowEqual a.1.mappedProps newProps then
          let r := updateLoop g rest
          ({ a.1 with mappedProps := newProps } :: r.1, .notify a.1.cid :: r.2.1, r.2.2)
        else
          let r := updateLoop g rest
          (a.1 :: r.1, r.2.1, r.2.2)

/-- `updateContainers` from the source, acting on the module state. -/
def updateContainers (s : Sys) : Sys :=
  let r := updateLoop s.currentGlobal s.containers
  { s with containers := r.1, events := s.events ++ r.2.1 }

/-- Running the callback list (initialised to `[updateContainers]`): emit
the pass event and run the recompute pass. -/
def runPass (s : Sys) : Sys :=
  updateContainers { s with events := s.events ++ [Event.passRan] }

/-- `runCallbacks` from the source: consume the one-shot
`forceOnHeavyAnimation` override, otherwise defer while the
heavy-animation gate is busy by registering a one-shot idle callback. -/
def runCallbacks (s : Sys) : Sys :=
  if s.forceOnHeavyAnimation then
    runPass { s with forceOnHeavyAnimation := false }
  else if s.gateBusy then
    { s with onceIdle := true }
  else
    runPass s

/-- Modelled from the spec: `throttleWithTickEnd` (`src/util/schedulers`,
outside the excerpt) coalesces calls within a tick into a single pending
flag; the flagged callback runs once at `tickEnd`. -/
def runCallbacksThrottled (s : Sys) : Sys :=
  { s with pendingTick := true }

/-- `setUntypedGlobal` from the source (production path): replace the
state cell only when the argument is an object reference-unequal to the
live one, then propagate synchronously (`forceSyncOnIOs`) or via the
throttled scheduler, setting the one-shot heavy-animation override when
requested. -/
def setUntypedGlobal (newGlobal : JVal) (o : ActionOptions) (s : Sys) : Sys :=
  if isObjectJ newGlobal && newGlobal != s.currentGlobal then
    let s1 := { s with currentGlobal := newGlobal }
    if o.forceSyncOnIOs then
      runCallbacks { s1 with forceOnHeavyAnimation := true }
    else
      let s2 :=
        if o.forceOnHeavyAnimation then { s1 with forceOnHeavyAnimation := true } else s1
      runCallbacksThrottled s2
  else s

/-- `getUntypedGlobal` from the source (production path): return the live
state. -/
def getUntypedGlobal (s : Sys) : JVal := s.currentGlobal

/-- `forceOnHeavyAnimationOnce` from the source. -/
def forceOnHeavyAnimationOnce (s : Sys) : Sys :=
  { s with forceOnHeavyAnimation := true }

/-- Modelled from the spec: end of the scheduling tick — a pending
throttled callback runs now. -/
def tickEnd (s : Sys) : Sys :=
  if s.pendingTick then runCallbacks { s with pendingTick := false } else s

/-- Modelled from the spec: the animation collaborator transitions to
idle, firing the one-shot `getIsHeavyAnimating.once` registration (which
is `runCallbacksThrottled`). -/
def gateIdle (s : Sys) : Sys :=
  let s1 := { s with gateBusy := false }
  if s.onceIdle then runCallbacksThrottled { s1 with onceIdle := false } else s1

/-- Modelled from the spec: the animation collaborator reports busy. -/
def gateBusySet (s : Sys) : Sys :=
  { s with gateBusy := true }

/-- Outcome of one action handler: no value, a thenable (pending async
result), a next state, or a thrown error. -/
inductive HOutcome where
  | void
  | thenable
  | newState (g : JVal)
  | thrown

/-- A registered action handler.  `run` receives the then-current global
and the payload and yields the dispatches it performs synchronously while
running (each an append to the action queue) together with its outcome. -/
structure Handler where
  run : JVal → Option Nat → List DispatchCall × HOutcome

/-- The module-level `actionHandlers` table. -/
abbrev HandlerRegistry := String → List Handler

/-- `addUntypedActionHandler` from the source: append the handler to the
list registered under `name`. -/
def addUntypedActionHandler (reg : HandlerRegistry) (name : String) (h : Handler) :
    HandlerRegistry :=
  fun n => if n = name then reg n ++ [h] else reg n

/-- A registry with no handlers. -/
def emptyRegistry : HandlerRegistry := fun _ => []

/-- The `forEach` body of the queued dispatch closure: run each handler
against the then-current global, append its re-entrant dispatches to the
action queue, skip void and thenable results, apply any returned state via
`setUntypedGlobal` with the dispatch options, and stop (propagating the
exception) when a handler throws.  Returns the state and whether a throw
escaped. -/
def execHandlers (name : String) (payload : Option Nat) (o : ActionOptions) :
    List Handler → Nat → Sys → Sys × Bool
  | [], _, s => (s, false)
  | h :: hs, idx, s =>
    let r := h.run s.currentGlobal payload
    let s1 := { s with
      actionQueue := s.actionQueue ++ r.1
      events := s.events ++ [Event.ranHandler name idx] }
    match r.2 with
    | .thrown => (s1, true)
    | .void => execHandlers name payload o hs (idx + 1) s1
    | .thenable => execHandlers name payload o hs (idx + 1) s1
    | .newState g => execHandlers name payload o hs (idx + 1) (setUntypedGlobal g o s1)

/-- The `while (actionQueue.length)` drain loop of `handleAction`: run the
front closure (which stays in the queue while running, so re-entrant
dispatches see a non-empty queue), then shift it; an escaping exception
exits the loop with the queue as it stands.  Fuel-indexed; `none` means
the fuel ran out. -/
def drainLoop (reg : HandlerRegistry) : Nat → Sys → Option (Sys × Bool)
  | 0, _ => none
  | fuel + 1, s =>
    match s.actionQueue with
    | [] => some (s, false)
    | c :: _ =>
      let r := execHandlers c.name c.payload c.options (reg c.name) 0 s
      if r.2 then some (r.1, true)
      else drainLoop reg fuel { r.1 with actionQueue := r.1.actionQueue.tail }

/-- `handleAction` from the source: push the dispatch closure; if it is
the only queue item, drain the queue, and in all cases (the `finally`
block) reset the queue to empty when the drain terminates. -/
def handleAction (reg : HandlerRegistry) (fuel : Nat) (c : DispatchCall) (s : Sys) :
    Option (Sys × Bool) :=
  let s1 := { s with actionQueue := s.actionQueue ++ [c] }
  if s1.actionQueue.length = 1 then
    match drainLoop reg fuel s1 with
    | none => none
    | some r => some ({ r.1 with actionQueue := [] }, r.2)
  else some (s1, false)

/-- Reachable module states: the initial state, closed under the public
operations — state replacement, tick ends, gate transitions, the one-shot
override, container (un)registration, and action dispatch. -/
inductive Reachable : Sys → Prop where
  | init : Reachable initialSys
  | set (g : JVal) (o : ActionOptions) (s : Sys) :
      Reachable s → Reachable (setUntypedGlobal g o s)
  | tick (s : Sys) : Reachable s → Reachable (tickEnd s)
  | idle (s : Sys) : Reachable s → Reachable (gateIdle s)
  | busy (s : Sys) : Reachable s → Reachable (gateBusySet s)
  | force (s : Sys) : Reachable s → Reachable (forceOnHeavyAnimationOnce s)
  | contain (cs : List Container) (s : Sys) :
      Reachable s → Reachable { s with containers := cs }
  | act (reg : HandlerRegistry) (fuel : Nat) (c : DispatchCall) (s : Sys)
      (r : Sys × Bool) :
      Reachable s → handleAction reg fuel c s = some r → Reachable r.1

/-- The value the state cell holds after a replace attempt: the argument
when it is an object reference-unequal to the live value, the live value
otherwise. -/
def replacedGlobal (cur g : JVal) : JVal :=
  if isObjectJ g && g != cur then g else cur

/-- Recognises handler-completion events. -/
def isRanEvent : Event → Bool
  | .ranHandler _ _ => true
  | _ => false

/-- The queue entries a computation appended beyond the queue it started
from. -/
def appendedCalls (s s2 : Sys) : List DispatchCall :=
  s2.actionQueue.drop s.actionQueue.length

/-- Whether a container's mapper throws on the given global. -/
def mapThrows (g : JVal) (c : Container) : Bool :=
  match c.mapStateToProps g c.ownProps with
  | .error _ => true
  | .ok _ => false

/-- Whether a container is active on the given global and its mapper then
throws (the condition under which `updateContainers` aborts at it). -/
def throwsAt (g : JVal) (c : Container) : Bool :=
  (activateContainer c g c.ownProps).2 && mapThrows g c

/-- Condition under which a recompute pass stores new props and invokes
`forceUpdate` for a container: active, mapper succeeds, and the new props
are non-empty and shallowly unequal to the previous ones. -/
def c5Notified (g : JVal) (c : Container) : Bool :=
  (activateContainer c g c.ownProps).2 &&
    (match c.mapStateToProps g c.ownProps with
     | .ok newP => !newP.isEmpty && !arePropsShallowEqual c.mappedProps newP
     | .error _ => false)

/-- The `mappedProps` a container holds after a recompute pass visits it. -/
def c5OutProps (g : JVal) (c : Container) : Props :=
  if c5Notified g c then
    match c.mapStateToProps g c.ownProps with
    | .ok newP => newP
    | .error _ => c.mappedProps
  else c.mappedProps

/-- The latch semantics the specification ascribes to `stickToFirst`: the
first non-empty candidate is latched; afterwards a call returns true
exactly when its candidate is non-empty and equal to the latched value. -/
def specStick : Option String → Option String → Option String × Bool
  | none, cand => if cand.isSome then (cand, true) else (none, false)
  | some v, cand => (some v, cand == some v)

/-- The spec's latch semantics threaded through a whole activation
script (each call updates the latch seen by the next call). -/
def specRunScript : ActScript → Option String → Option String × Bool
  | .done b, latched => (latched, b)
  | .call cand k, latched =>
    let r := specStick latched cand
    specRunScript (k r.2) r.1

/-- A sequence of activation evaluations of one container, returning the
final container and the activation results in order. -/
def iterateActivate (c : Container) : List (JVal × Props) → Container × List Bool
  | [] => (c, [])
  | gp :: rest =>
    let r := activateContainer c gp.1 gp.2
    let r2 := iterateActivate r.1 rest
    (r2.1, r.2 :: r2.2)

/-- The spec's latch semantics over a sequence of evaluations, the
candidate of each evaluation given by `choose`. -/
def evalSeqSpec (choose : JVal → Props → Option String) :
    List (JVal × Props) → Option String → Option String × List Bool
  | [], st => (st, [])
  | gp :: rest, st =>
    let r := specStick st (choose gp.1 gp.2)
    let r2 := evalSeqSpec choose rest r.1
    (r2.1, r.2 :: r2.2)

/-- Handler for action A that synchronously dispatches B and returns no
value. -/
def hA1 : Handler := ⟨fun _ _ => ([⟨"B", none, {}⟩], .void)⟩

/-- Second handler for action A, returning no value. -/
def hA2 : Handler := ⟨fun _ _ => ([], .void)⟩

/-- Handler for action B, returning no value. -/
def hB : Handler := ⟨fun _ _ => ([], .void)⟩

/-- Handler that dispatches B and then throws. -/
def hThrow : Handler := ⟨fun _ _ => ([⟨"B", none, {}⟩], .thrown)⟩

/-- Handler that returns object 2 as the next state. -/
def hSet : Handler := ⟨fun _ _ => ([], .newState (.obj 2))⟩

/-- Registry for the re-entrancy scenario: A has handlers `hA1, hA2`, B
has `hB`. -/
def regAB : HandlerRegistry :=
  addUntypedActionHandler (addUntypedActionHandler
    (addUntypedActionHandler emptyRegistry "A" hA1) "A" hA2) "B" hB

/-- Registry for the failure scenario: A throws (after dispatching B), B
is harmless. -/
def regT : HandlerRegistry :=
  addUntypedActionHandler (addUntypedActionHandler emptyRegistry "A" hThrow) "B" hB

/-- The dispatch of action A with no payload and default options. -/
def callA : DispatchCall := ⟨"A", none, {}⟩

/-- The dispatch of action B with no payload and default options. -/
def callB : DispatchCall := ⟨"B", none, {}⟩

/-- Initial state with the dispatch of A already at the head of the
queue (the situation inside a running drain). -/
def sQ : Sys := { initialSys with actionQueue := [callA] }

/-- Container X: mapper succeeds and produces changed props. -/
def contX : Container :=
  { cid := 0, mapStateToProps := fun _ _ => .ok [("k", 1)], activationFn := none,
    mappedProps := [("k", 0)] }

/-- Container Y: mapper throws. -/
def contY : Container :=
  { cid := 1, mapStateToProps := fun _ _ => .error (), activationFn := none,
    mappedProps := [("y", 5)] }

/-- Container Z: mapper succeeds with changed props (after Y in
registration order). -/
def contZ : Container :=
  { cid := 2, mapStateToProps := fun _ _ => .ok [("z", 9)], activationFn := none,
    mappedProps := [("z", 0)] }

/-- Container whose mapper returns props shallow-equal to the previous
ones. -/
def contSame : Container :=
  { cid := 3, mapStateToProps := fun _ _ => .ok [("s", 1)], activationFn := none,
    mappedProps := [("s", 1)] }

/-- Container whose activation function passes two different non-empty
candidates to `stickToFirst` within a single evaluation. -/
def cDouble : Container :=
  { cid := 0, mapStateToProps := fun _ _ => .ok [],
    activationFn := some (fun _ _ => .call (some "a") (fun _ => .call (some "b") ActScript.done)) }

/-- Initial state with the heavy-animation gate busy (note the
`forceOnHeavyAnimation` flag still holds its initial value `true`). -/
def sBusy : Sys := { initialSys with gateBusy := true }

/-- State with the gate busy and no one-shot override pending. -/
def sBusyNoForce : Sys :=
  { initialSys with gateBusy := true, forceOnHeavyAnimation := false }

/-- Candidate chooser for the activation-latch witness: claim "chat-1" on
global 1, "chat-2" on global 2. -/
def chooseW : JVal → Props → Option String := fun g _ =>
  match g with
  | .obj 1 => some "chat-1"
  | .obj 2 => some "chat-2"
  | _ => none

/-- Container whose activation function makes exactly one `stickToFirst`
call per evaluation and returns its result. -/
def cW : Container :=
  { cid := 7, mapStateToProps := fun _ _ => .ok [],
    activationFn := some (fun g p => ActScript.call (chooseW g p) ActScript.done) }

@[simp] lemma activate_fst_mapStateToProps (c : Container) (g : JVal) (p : Props) :
    (activateContainer c g p).1.mapStateToProps = c.mapStateToProps := by
  cases h : c.activationFn <;> simp [activateContainer, h]

@[simp] lemma activate_fst_ownProps (c : Container) (g : JVal) (p : Props) :
    (activateContainer c g p).1.ownProps = c.ownProps := by
  cases h : c.activationFn <;> simp [activateContainer, h]

@[simp] lemma activate_fst_mappedProps (c : Container) (g : JVal) (p : Props) :
    (activateContainer c g p).1.mappedProps = c.mappedProps := by
  cases h : c.activationFn <;> simp [activateContainer, h]

@[simp] lemma activate_fst_cid (c : Container) (g : JVal) (p : Props) :
    (activateContainer c g p).1.cid = c.cid := by
  cases h : c.activationFn <;> simp [activateContainer, h]

@[simp] lemma activate_fst_activationFn (c : Container) (g : JVal) (p : Props) :
    (activateContainer c g p).1.activationFn = c.activationFn := by
  cases h : c.activationFn <;> simp [activateContainer, h]

lemma updateLoop_nil (g : JVal) : updateLoop g [] = ([], [], false) := rfl

lemma updateLoop_cons_inactive (g : JVal) (c : Container) (rest : List Container)
    (h : (activateContainer c g c.ownProps).2 = false) :
    updateLoop g (c :: rest)
      = ((activateContainer c g c.ownProps).1 :: (updateLoop g rest).1,
         (updateLoop g rest).2.1, (updateLoop g rest).2.2) := by
  simp [updateLoop, h]

lemma updateLoop_cons_throw (g : JVal) (c : Container) (rest : List Container)
    (hact : (activateContainer c g c.ownProps).2 = true)
    (herr : c.mapStateToProps g c.ownProps = .error ()) :
    updateLoop g (c :: rest)
      = ((activateContainer c g c.ownProps).1 :: rest, [Event.reported], true) := by
  simp [updateLoop, hact, herr]

lemma updateLoop_cons_ok_changed (g : JVal) (c : Container) (rest : List Container)
    (newP : Props) (hact : (activateContainer c g c.ownProps).2 = true)
    (hok : c.mapStateToProps g c.ownProps = .ok newP)
    (hch : (!newP.isEmpty && !arePropsShallowEqual c.mappedProps newP) = true) :
    updateLoop g (c :: rest)
      = ({ (activateContainer c g c.ownProps).1 with mappedProps := newP }
           :: (updateLoop g rest).1,
         Event.notify c.cid :: (updateLoop g rest).2.1, (updateLoop g rest).2.2) := by
  simp [updateLoop, hact, hok, hch]

lemma updateLoop_cons_ok_same (g : JVal) (c : Container) (rest : List Container)
    (newP : Props) (hact : (activateContainer c g c.ownProps).2 = true)
    (hok : c.mapStateToProps g c.ownProps = .ok newP)
    (hch : (!newP.isEmpty && !arePropsShallowEqual c.mappedProps newP) = false) :
    updateLoop g (c :: rest)
      = ((activateContainer c g c.ownProps).1 :: (updateLoop g rest).1,
         (updateLoop g rest).2.1, (updateLoop g rest).2.2) := by
  simp [updateLoop, hact, hok, hch]

lemma updateLoop_events_mem (g : JVal) (cs : List Container) :
    ∀ e ∈ (updateLoop g cs).2.1, e = Event.reported ∨ ∃ n, e = Event.notify n := by
  induction cs with
  | nil => simp [updateLoop_nil]
  | cons c rest ih =>
    cases hact : (activateContainer c g c.ownProps).2 with
    | false =>
      rw [updateLoop_cons_inactive g c rest hact]
      exact ih
    | true =>
      cases hmap : c.mapStateToProps g c.ownProps with
      | error u =>
        cases u
        rw [updateLoop_cons_throw g c rest hact hmap]
        simp
      | ok newP =>
        cases hch : (!newP.isEmpty && !arePropsShallowEqual c.mappedProps newP) with
        | false =>
          rw [updateLoop_cons_ok_same g c rest newP hact hmap hch]
          exact ih
        | true =>
          rw [updateLoop_cons_ok_changed g c rest newP hact hmap hch]
          intro e he
          rcases List.mem_cons.mp he with rfl | he2
          · exact Or.inr ⟨c.cid, rfl⟩
          · exact ih e he2

lemma updateLoop_count_passRan (g : JVal) (cs : List Container) :
    ((updateLoop g cs).2.1).count Event.passRan = 0 := by
  rw [List.count_eq_zero]
  intro hmem
  rcases updateLoop_events_mem g cs _ hmem with h | ⟨n, h⟩ <;> simp at h

lemma updateLoop_filter_ran (g : JVal) (cs : List Container) :
    ((updateLoop g cs).2.1).filter isRanEvent = [] := by
  rw [List.filter_eq_nil_iff]
  intro e hmem
  rcases updateLoop_events_mem g cs e hmem with h | ⟨n, h⟩ <;> simp [h, isRanEvent]

@[simp] lemma updateContainers_currentGlobal (s : Sys) :
    (updateContainers s).currentGlobal = s.currentGlobal := rfl

@[simp] lemma updateContainers_actionQueue (s : Sys) :
    (updateContainers s).actionQueue = s.actionQueue := rfl

@[simp] lemma updateContainers_pendingTick (s : Sys) :
    (updateContainers s).pendingTick = s.pendingTick := rfl

@[simp] lemma updateContainers_onceIdle (s : Sys) :
    (updateContainers s).onceIdle = s.onceIdle := rfl

@[simp] lemma updateContainers_gateBusy (s : Sys) :
    (updateContainers s).gateBusy = s.gateBusy := rfl

@[simp] lemma updateContainers_force (s : Sys) :
    (updateContainers s).forceOnHeavyAnimation = s.forceOnHeavyAnimation := rfl

lemma updateContainers_events (s : Sys) :
    (updateContainers s).events
      = s.events ++ (updateLoop s.currentGlobal s.containers).2.1 := rfl

@[simp] lemma runPass_currentGlobal (s : Sys) :
    (runPass s).currentGlobal = s.currentGlobal := rfl

@[simp] lemma runPass_actionQueue (s : Sys) :
    (runPass s).actionQueue = s.actionQueue := rfl

@[simp] lemma runPass_pendingTick (s : Sys) :
    (runPass s).pendingTick = s.pendingTick := rfl

@[simp] lemma runPass_onceIdle (s : Sys) :
    (runPass s).onceIdle = s.onceIdle := rfl

@[simp] lemma runPass_gateBusy (s : Sys) :
    (runPass s).gateBusy = s.gateBusy := rfl

@[simp] lemma runPass_force (s : Sys) :
    (runPass s).forceOnHeavyAnimation = s.forceOnHeavyAnimation := rfl

lemma runPass_events (s : Sys) :
    (runPass s).events
      = (s.events ++ [Event.passRan])
          ++ (updateLoop s.currentGlobal s.containers).2.1 := rfl

lemma runPass_count_passRan (s : Sys) :
    (runPass s).events.count Event.passRan = s.events.count Event.passRan + 1 := by
  rw [runPass_events]
  simp [List.count_append, updateLoop_count_passRan]

lemma runPass_filter_ran (s : Sys) :
    (runPass s).events.filter isRanEvent = s.events.filter isRanEvent := by
  rw [runPass_events]
  simp [List.filter_append, updateLoop_filter_ran, isRanEvent]

@[simp] lemma runCallbacks_currentGlobal (s : Sys) :
    (runCallbacks s).currentGlobal = s.currentGlobal := by
  unfold runCallbacks
  split
  · simp
  · split <;> simp

@[simp] lemma runCallbacks_actionQueue (s : Sys) :
    (runCallbacks s).actionQueue = s.actionQueue := by
  unfold runCallbacks
  split
  · simp
  · split <;> simp

@[simp] lemma runCallbacks_pendingTick (s : Sys) :
    (runCallbacks s).pendingTick = s.pendingTick := by
  unfold runCallbacks
  split
  · simp
  · split <;> simp

lemma runCallbacks_filter_ran (s : Sys) :
    (runCallbacks s).events.filter isRanEvent = s.events.filter isRanEvent := by
  unfold runCallbacks
  split
  · rw [runPass_filter_ran]
  · split
    · rfl
    · rw [runPass_filter_ran]

lemma setUntypedGlobal_currentGlobal (g : JVal) (o : ActionOptions) (s : Sys) :
    (setUntypedGlobal g o s).currentGlobal = replacedGlobal s.currentGlobal g := by
  unfold setUntypedGlobal replacedGlobal
  by_cases hc : (isObjectJ g && g != s.currentGlobal) = true
  · simp only [hc, if_true]
    by_cases hs : o.forceSyncOnIOs = true
    · simp [hs]
    · simp only [hs, if_false, Bool.false_eq_true]
      split <;> rfl
  · simp [hc]

lemma setUntypedGlobal_actionQueue (g : JVal) (o : ActionOptions) (s : Sys) :
    (setUntypedGlobal g o s).actionQueue = s.actionQueue := by
  unfold setUntypedGlobal
  by_cases hc : (isObjectJ g && g != s.currentGlobal) = true
  · simp only [hc, if_true]
    by_cases hs : o.forceSyncOnIOs = true
    · simp [hs]
    · simp only [hs, if_false, Bool.false_eq_true]
      split <;> rfl
  · simp [hc]

lemma setUntypedGlobal_filter_ran (g : JVal) (o : ActionOptions) (s : Sys) :
    (setUntypedGlobal g o s).events.filter isRanEvent = s.events.filter isRanEvent := by
  unfold setUntypedGlobal
  by_cases hc : (isObjectJ g && g != s.currentGlobal) = true
  · simp only [hc, if_true]
    by_cases hs : o.forceSyncOnIOs = true
    · simp only [hs, if_true]
      rw [runCallbacks_filter_ran]
    · simp only [hs, if_false, Bool.false_eq_true]
      split <;> rfl
  · simp [hc]

lemma replacedGlobal_isObj (cur g : JVal) (h : isObjectJ cur = true) :
    isObjectJ (replacedGlobal cur g) = true := by
  unfold replacedGlobal
  by_cases hc : (isObjectJ g && g != cur) = true
  · simp only [hc, if_true]
    exact ((Bool.and_eq_true _ _).mp hc).1
  · simp [hc, h]

lemma setUntypedGlobal_isObj (g : JVal) (o : ActionOptions) (s : Sys)
    (h : isObjectJ s.currentGlobal = true) :
    isObjectJ (setUntypedGlobal g o s).currentGlobal = true := by
  rw [setUntypedGlobal_currentGlobal]
  exact replacedGlobal_isObj s.currentGlobal g h

@[simp] lemma tickEnd_currentGlobal (s : Sys) :
    (tickEnd s).currentGlobal = s.currentGlobal := by
  unfold tickEnd
  split <;> simp

@[simp] lemma gateIdle_currentGlobal (s : Sys) :
    (gateIdle s).currentGlobal = s.currentGlobal := by
  unfold gateIdle
  split <;> rfl

lemma execHandlers_isObj (name : String) (p : Option Nat) (o : ActionOptions) :
    ∀ (hs : List Handler) (idx : Nat) (s : Sys),
      isObjectJ s.currentGlobal = true →
      isObjectJ (execHandlers name p o hs idx s).1.currentGlobal = true := by
  intro hs
  induction hs with
  | nil => intro idx s h; exact h
  | cons h2 rest ih =>
    intro idx s h
    rcases hr : h2.run s.currentGlobal p with ⟨calls, out⟩
    simp only [execHandlers, hr]
    cases out with
    | thrown => exact h
    | void => exact ih (idx + 1) _ h
    | thenable => exact ih (idx + 1) _ h
    | newState g2 =>
      refine ih (idx + 1) _ ?_
      exact setUntypedGlobal_isObj g2 o _ h

lemma drainLoop_isObj (reg : HandlerRegistry) :
    ∀ (fuel : Nat) (s : Sys) (r : Sys × Bool),
      drainLoop reg fuel s = some r → isObjectJ s.currentGlobal = true →
      isObjectJ r.1.currentGlobal = true := by
  intro fuel
  induction fuel with
  | zero => intro s r hd h; simp [drainLoop] at hd
  | succ n ih =>
    intro s r hd h
    cases hq : s.actionQueue with
    | nil =>
      simp only [drainLoop, hq] at hd
      cases hd
      exact h
    | cons c rest =>
      simp only [drainLoop, hq] at hd
      by_cases ht : (execHandlers c.name c.payload c.options (reg c.name) 0 s).2 = true
      · rw [if_pos ht] at hd
        cases hd
        exact execHandlers_isObj c.name c.payload c.options (reg c.name) 0 s h
      · rw [if_neg ht] at hd
        exact ih _ r hd (execHandlers_isObj c.name c.payload c.options (reg c.name) 0 s h)

lemma handleAction_isObj (reg : HandlerRegistry) (fuel : Nat) (c : DispatchCall)
    (s : Sys) (r : Sys × Bool) (hd : handleAction reg fuel c s = some r)
    (h : isObjectJ s.currentGlobal = true) :
    isObjectJ r.1.currentGlobal = true := by
  unfold handleAction at hd
  by_cases hl : ({ s with actionQueue := s.actionQueue ++ [c] } : Sys).actionQueue.length = 1
  · rw [if_pos hl] at hd
    cases hdr : drainLoop reg fuel { s with actionQueue := s.actionQueue ++ [c] } with
    | none => rw [hdr] at hd; cases hd
    | some r2 =>
      rw [hdr] at hd
      cases hd
      exact drainLoop_isObj reg fuel _ r2 hdr h
  · rw [if_neg hl] at hd
    cases hd
    exact h

/-- Claim C1 — the state-replace contract.  Replacing with the currently
live value is a complete no-op (the module state is unchanged, nothing is
scheduled); replacing with a reference-unequal object makes the subsequent
read return the new value, and a recompute pass is scheduled (pending
throttled flush) or, under `forceSyncOnIOs`, run at once. -/
theorem c1_replace_read (s : Sys) (g : JVal) (o : ActionOptions) :
    setUntypedGlobal s.currentGlobal o s = s
    ∧ (isObjectJ g = true → g ≠ s.currentGlobal →
        getUntypedGlobal (setUntypedGlobal g o s) = g
        ∧ (o.forceSyncOnIOs = false → (setUntypedGlobal g o s).pendingTick = true)
        ∧ (o.forceSyncOnIOs = true →
            (setUntypedGlobal g o s).events.count Event.passRan
              = s.events.count Event.passRan + 1)) := by
  constructor
  · unfold setUntypedGlobal
    simp
  · intro hobj hne
    have h1 : (g != s.currentGlobal) = true := bne_iff_ne.mpr hne
    have hguard : (isObjectJ g && g != s.currentGlobal) = true := by
      simp [hobj, h1]
    refine ⟨?_, ?_, ?_⟩
    · rw [getUntypedGlobal, setUntypedGlobal_currentGlobal]
      unfold replacedGlobal
      rw [if_pos hguard]
    · intro hsy
      unfold setUntypedGlobal
      rw [if_pos hguard, if_neg (by simp [hsy])]
      split <;> rfl
    · intro hsy
      unfold setUntypedGlobal
      rw [if_pos hguard, if_pos hsy]
      rw [runCallbacks]
      rw [if_pos rfl]
      rw [runPass_count_passRan]

/-- Witness for C1 at a concrete input: replacing the initial state with a
fresh object makes the read return it and sets the pending flag. -/
theorem c1_replace_read_witness :
    getUntypedGlobal (setUntypedGlobal (JVal.obj 1) ⟨false, false, false⟩ initialSys)
        = JVal.obj 1
    ∧ (setUntypedGlobal (JVal.obj 1) ⟨false, false, false⟩ initialSys).pendingTick = true := by
  have h := (c1_replace_read initialSys (JVal.obj 1) ⟨false, false, false⟩).2
    (by decide) (by decide)
  exact ⟨h.1, h.2.1 rfl⟩

/-- Claim C9 — replacing with a non-object (undefined) is a total no-op,
and consequently the live state is an object in every reachable module
state. -/
theorem c9_undefined_noop (o : ActionOptions) (s : Sys) (hs : Reachable s) :
    setUntypedGlobal JVal.undef o s = s ∧ isObjectJ s.currentGlobal = true := by
  constructor
  · unfold setUntypedGlobal
    simp [isObjectJ]
  · induction hs with
    | init => rfl
    | set g o2 s2 _ ih => exact setUntypedGlobal_isObj g o2 s2 ih
    | tick s2 _ ih => rw [tickEnd_currentGlobal]; exact ih
    | idle s2 _ ih => rw [gateIdle_currentGlobal]; exact ih
    | busy s2 _ ih => exact ih
    | force s2 _ ih => exact ih
    | contain cs s2 _ ih => exact ih
    | act reg fuel c s2 r _ hact ih => exact handleAction_isObj reg fuel c s2 r hact ih

/-- Witness for C9 at the initial state. -/
theorem c9_undefined_noop_witness :
    setUntypedGlobal JVal.undef ⟨false, false, false⟩ initialSys = initialSys
    ∧ isObjectJ initialSys.currentGlobal = true :=
  c9_undefined_noop ⟨false, false, false⟩ initialSys Reachable.init

/-- Claim C10 — a replace with `forceSyncOnIOs` runs the recompute pass
synchronously in the same turn (one more pass event, nothing left merely
scheduled), bypassing the heavy-animation gate for any gate state and any
value of `forceOnHeavyAnimation` in the options, and consumes the one-shot
override. -/
theorem c10_force_sync (s : Sys) (g : JVal) (o : ActionOptions)
    (hobj : isObjectJ g = true) (hne : g ≠ s.currentGlobal)
    (hsync : o.forceSyncOnIOs = true) :
    (setUntypedGlobal g o s).events.count Event.passRan
        = s.events.count Event.passRan + 1
    ∧ (setUntypedGlobal g o s).pendingTick = s.pendingTick
    ∧ (setUntypedGlobal g o s).forceOnHeavyAnimation = false
    ∧ (setUntypedGlobal g o s).currentGlobal = g := by
  have h1 : (g != s.currentGlobal) = true := bne_iff_ne.mpr hne
  have hguard : (isObjectJ g && g != s.currentGlobal) = true := by
    simp [hobj, h1]
  have hrw : setUntypedGlobal g o s
      = runCallbacks { s with currentGlobal := g, forceOnHeavyAnimation := true } := by
    unfold setUntypedGlobal
    rw [if_pos hguard, if_pos hsync]
  rw [hrw, runCallbacks, if_pos rfl]
  refine ⟨?_, by simp, by simp, by simp⟩
  rw [runPass_count_passRan]

/-- Witness for C10: with the gate busy, no pending override, and
`forceOnHeavyAnimation` also passed in the options, the synchronous
replace still runs the pass at once. -/
theorem c10_force_sync_witness :
    (setUntypedGlobal (JVal.obj 1) ⟨true, true, false⟩ sBusyNoForce).events.count
        Event.passRan = sBusyNoForce.events.count Event.passRan + 1
    ∧ (setUntypedGlobal (JVal.obj 1) ⟨true, true, false⟩ sBusyNoForce).pendingTick
        = sBusyNoForce.pendingTick
    ∧ (setUntypedGlobal (JVal.obj 1) ⟨true, true, false⟩ sBusyNoForce).forceOnHeavyAnimation
        = false
    ∧ (setUntypedGlobal (JVal.obj 1) ⟨true, true, false⟩ sBusyNoForce).currentGlobal
        = JVal.obj 1 :=
  c10_force_sync sBusyNoForce (JVal.obj 1) ⟨true, true, false⟩ (by decide) (by decide) rfl

lemma updateLoop_append_noThrow (g : JVal) (pre rest : List Container)
    (h : ∀ c ∈ pre, throwsAt g c = false) :
    updateLoop g (pre ++ rest)
      = ((updateLoop g pre).1 ++ (updateLoop g rest).1,
         (updateLoop g pre).2.1 ++ (updateLoop g rest).2.1,
         (updateLoop g rest).2.2) := by
  induction pre with
  | nil => simp [updateLoop_nil]
  | cons c pr ih =>
    have hc : throwsAt g c = false := h c (List.mem_cons_self c pr)
    have hrest : ∀ c2 ∈ pr, throwsAt g c2 = false :=
      fun c2 hm => h c2 (List.mem_cons_of_mem c hm)
    cases hact : (activateContainer c g c.ownProps).2 with
    | false =>
      rw [List.cons_append, updateLoop_cons_inactive g c (pr ++ rest) hact,
          updateLoop_cons_inactive g c pr hact, ih hrest]
      simp
    | true =>
      have hmt : mapThrows g c = false := by
        unfold throwsAt at hc
        rw [hact] at hc
        simpa using hc
      cases hmap : c.mapStateToProps g c.ownProps with
      | error u =>
        exfalso
        unfold mapThrows at hmt
        rw [hmap] at hmt
        simp at hmt
      | ok newP =>
        cases hch : (!newP.isEmpty && !arePropsShallowEqual c.mappedProps newP) with
        | true =>
          rw [List.cons_append, updateLoop_cons_ok_changed g c (pr ++ rest) newP hact hmap hch,
              updateLoop_cons_ok_changed g c pr newP hact hmap hch, ih hrest]
          simp
        | false =>
          rw [List.cons_append, updateLoop_cons_ok_same g c (pr ++ rest) newP hact hmap hch,
              updateLoop_cons_ok_same g c pr newP hact hmap hch, ih hrest]
          simp

lemma updateLoop_noThrow (g : JVal) :
    ∀ (cs : List Container), (∀ c ∈ cs, throwsAt g c = false) →
      (updateLoop g cs).2.2 = false
      ∧ (updateLoop g cs).2.1
          = cs.filterMap
              (fun c => if c5Notified g c then some (Event.notify c.cid) else none)
      ∧ (updateLoop g cs).1.map (fun c => c.mappedProps) = cs.map (c5OutProps g) := by
  intro cs
  induction cs with
  | nil => intro h; exact ⟨rfl, rfl, rfl⟩
  | cons c pr ih =>
    intro h
    have hc : throwsAt g c = false := h c (List.mem_cons_self c pr)
    have hrest : ∀ c2 ∈ pr, throwsAt g c2 = false :=
      fun c2 hm => h c2 (List.mem_cons_of_mem c hm)
    have ihr := ih hrest
    cases hact : (activateContainer c g c.ownProps).2 with
    | false =>
      have hnot : c5Notified g c = false := by
        simp [c5Notified, hact]
      have hout : c5OutProps g c = c.mappedProps := by
        unfold c5OutProps
        rw [hnot]
        simp
      rw [updateLoop_cons_inactive g c pr hact]
      refine ⟨ihr.1, ?_, ?_⟩
      · simp [List.filterMap_cons, hnot, ihr.2.1]
      · simp [hout, ihr.2.2]
    | true =>
      have hmt : mapThrows g c = false := by
        unfold throwsAt at hc
        rw [hact] at hc
        simpa using hc
      cases hmap : c.mapStateToProps g c.ownProps with
      | error u =>
        exfalso
        unfold mapThrows at hmt
        rw [hmap] at hmt
        simp at hmt
      | ok newP =>
        cases hch : (!newP.isEmpty && !arePropsShallowEqual c.mappedProps newP) with
        | true =>
          have hnot : c5Notified g c = true := by
            simp [c5Notified, hact, hmap, hch]
          have hout : c5OutProps g c = newP := by
            unfold c5OutProps
            rw [hnot, hmap]
            simp
          rw [updateLoop_cons_ok_changed g c pr newP hact hmap hch]
          refine ⟨ihr.1, ?_, ?_⟩
          · simp [List.filterMap_cons, hnot, ihr.2.1]
          · simp [hout, ihr.2.2]
        | false =>
          have hnot : c5Notified g c = false := by
            simp [c5Notified, hact, hmap, hch]
          have hout : c5OutProps g c = c.mappedProps := by
            unfold c5OutProps
            rw [hnot]
            simp
          rw [updateLoop_cons_ok_same g c pr newP hact hmap hch]
          refine ⟨ihr.1, ?_, ?_⟩
          · simp [List.filterMap_cons, hnot, ihr.2.1]
          · simp [hout, ihr.2.2]

lemma count_notify_filterMap (g : JVal) (n : Nat) :
    ∀ (cs : List Container),
      ((cs.filterMap
          (fun c => if c5Notified g c then some (Event.notify c.cid) else none)).count
        (Event.notify n))
        ≤ (cs.map fun c => c.cid).count n := by
  intro cs
  induction cs with
  | nil => simp
  | cons c pr ih =>
    simp only [List.filterMap_cons, List.map_cons]
    by_cases hn : c5Notified g c = true
    · rw [if_pos hn, List.count_cons, List.count_cons]
      by_cases h2 : c.cid = n
      · subst h2
        simp only [beq_self_eq_true, if_true]
        omega
      · have e1 : (Event.notify c.cid == Event.notify n) = false := by
          simp [h2]
        have e2 : (c.cid == n) = false := by
          simp [h2]
        rw [e1, e2]
        simp only [Bool.false_eq_true, if_false]
        omega
    · simp only [if_neg hn]
      rw [List.count_cons]
      omega

lemma no_reported_of_noThrow (g : JVal) (cs : List Container)
    (h : ∀ c ∈ cs, throwsAt g c = false) :
    ((updateLoop g cs).2.1).count Event.reported = 0 := by
  rw [(updateLoop_noThrow g cs h).2.1, List.count_eq_zero]
  intro hmem
  rcases List.mem_filterMap.mp hmem with ⟨c, _, hc⟩
  by_cases hn : c5Notified g c = true
  · rw [if_pos hn] at hc
    cases hc
  · rw [if_neg hn] at hc
    cases hc

/-- Counterexample to claim C4 as stated: with containers `[X, Y]` where
X's mapper produces changed props and Y's mapper throws, the pass does
notify X and does replace X's `mappedProps` before aborting at Y — so it
is false that "every container keeps its previous mappedProps and receives
no notify call in that pass". -/
theorem c4_counterexample :
    ¬ (((updateLoop (JVal.obj 1) [contX, contY]).2.1).count (Event.notify 0) = 0
       ∧ ((updateLoop (JVal.obj 1) [contX, contY]).1.map fun c => c.mappedProps)
           = [contX.mappedProps, contY.mappedProps]) := by
  decide

/-- Claim C4 as amended: when a pass reaches a container whose mapper
throws (all earlier containers not throwing), the error is reported
exactly once, the pass aborts — the throwing container keeps its previous
`mappedProps` and it and all later containers receive no notify and no
update (the trace ends at the single report, the tail list is returned
untouched) — while containers before the throwing one are processed
normally, so their updates and notifications stand. -/
theorem c4_abort_amended (g : JVal) (pre : List Container) (thrower : Container)
    (post : List Container)
    (hpre : ∀ c ∈ pre, throwsAt g c = false)
    (hth : throwsAt g thrower = true) :
    (updateLoop g (pre ++ thrower :: post)).2.2 = true
    ∧ (updateLoop g (pre ++ thrower :: post)).2.1
        = (updateLoop g pre).2.1 ++ [Event.reported]
    ∧ ((updateLoop g (pre ++ thrower :: post)).2.1).count Event.reported = 1
    ∧ (updateLoop g (pre ++ thrower :: post)).1
        = (updateLoop g pre).1
            ++ (activateContainer thrower g thrower.ownProps).1 :: post
    ∧ (activateContainer thrower g thrower.ownProps).1.mappedProps
        = thrower.mappedProps := by
  have hact : (activateContainer thrower g thrower.ownProps).2 = true :=
    ((Bool.and_eq_true _ _).mp hth).1
  have hmt : mapThrows g thrower = true := ((Bool.and_eq_true _ _).mp hth).2
  have hmap : thrower.mapStateToProps g thrower.ownProps = .error () := by
    unfold mapThrows at hmt
    cases hm : thrower.mapStateToProps g thrower.ownProps with
    | error u => cases u; rfl
    | ok newP => rw [hm] at hmt; simp at hmt
  have hthrow := updateLoop_cons_throw g thrower post hact hmap
  have happ := updateLoop_append_noThrow g pre (thrower :: post) hpre
  rw [happ, hthrow]
  refine ⟨rfl, rfl, ?_, rfl, by simp⟩
  simp [List.count_append, no_reported_of_noThrow g pre hpre]

/-- Witness for C4 (amended) on containers `[X, Y, Z]` with Y throwing:
the trace is X's events followed by the single report, and the report
count is one. -/
theorem c4_abort_amended_witness :
    (updateLoop (JVal.obj 1) [contX, contY, contZ]).2.1
        = (updateLoop (JVal.obj 1) [contX]).2.1 ++ [Event.reported]
    ∧ ((updateLoop (JVal.obj 1) [contX, contY, contZ]).2.1).count Event.reported = 1
    ∧ (activateContainer contY (JVal.obj 1) contY.ownProps).1.mappedProps
        = contY.mappedProps := by
  have h := c4_abort_amended (JVal.obj 1) [contX] contY [contZ] (by decide) (by decide)
  exact ⟨h.2.1, h.2.2.1, h.2.2.2.2⟩

/-- Claim C5 — the shallow-equality notify gate.  In a pass with no
throwing mapper, each container's resulting `mappedProps` is the newly
derived props exactly when the container is active and the new props are
non-empty and shallowly unequal to the previous ones (otherwise the
previous props are kept), the notify trace consists of exactly the
containers satisfying that condition in order, and (for distinct container
identities) each container is notified at most once per pass. -/
theorem c5_notify_gate (g : JVal) (cs : List Container)
    (h : ∀ c ∈ cs, throwsAt g c = false) :
    ((updateLoop g cs).1.map fun c => c.mappedProps) = cs.map (c5OutProps g)
    ∧ (updateLoop g cs).2.1
        = cs.filterMap
            (fun c => if c5Notified g c then some (Event.notify c.cid) else none)
    ∧ ((cs.map fun c => c.cid).Nodup →
        ∀ n, ((updateLoop g cs).2.1).count (Event.notify n) ≤ 1) := by
  refine ⟨(updateLoop_noThrow g cs h).2.2, (updateLoop_noThrow g cs h).2.1, ?_⟩
  intro hnd n
  rw [(updateLoop_noThrow g cs h).2.1]
  exact le_trans (count_notify_filterMap g n cs)
    (List.nodup_iff_count_le_one.mp hnd n)

/-- Witness for C5: a changed container is notified once, an unchanged one
not at all, and the stored props follow the gate. -/
theorem c5_notify_gate_witness :
    ((updateLoop (JVal.obj 1) [contX, contSame]).1.map fun c => c.mappedProps)
        = [[("k", 1)], [("s", 1)]]
    ∧ (updateLoop (JVal.obj 1) [contX, contSame]).2.1 = [Event.notify 0] := by
  have h := c5_notify_gate (JVal.obj 1) [contX, contSame] (by decide)
  exact ⟨h.1.trans (by decide), h.2.1.trans (by decide)⟩

lemma activate_single_call (choose : JVal → Props → Option String) (c : Container)
    (g : JVal) (p : Props)
    (hact : c.activationFn = some (fun g2 p2 => ActScript.call (choose g2 p2) ActScript.done)) :
    activateContainer c g p
      = ({ c with stuckTo := (specStick c.stuckTo (choose g p)).1 },
         (specStick c.stuckTo (choose g p)).2) := by
  unfold activateContainer
  rw [hact]
  cases hst : c.stuckTo with
  | none =>
    cases hcand : choose g p with
    | none => simp [runScript, specStick, hcand, hst]
    | some w => simp [runScript, specStick, hcand, hst]
  | some v =>
    cases hcand : choose g p with
    | none => simp [runScript, specStick, hcand, hst]
    | some w =>
      by_cases hvw : v = w
      · subst hvw
        simp [runScript, specStick, hcand, hst]
      · have h2 : w ≠ v := fun h3 => hvw h3.symm
        simp [runScript, specStick, hcand, hst, hvw, h2]

lemma iterate_single_call (choose : JVal → Props → Option String) :
    ∀ (inputs : List (JVal × Props)) (c : Container),
      c.activationFn = some (fun g p => ActScript.call (choose g p) ActScript.done) →
      (iterateActivate c inputs).1.stuckTo = (evalSeqSpec choose inputs c.stuckTo).1
      ∧ (iterateActivate c inputs).2 = (evalSeqSpec choose inputs c.stuckTo).2 := by
  intro inputs
  induction inputs with
  | nil => intro c h; exact ⟨rfl, rfl⟩
  | cons gp rest ih =>
    intro c h
    simp only [iterateActivate, evalSeqSpec]
    rw [activate_single_call choose c gp.1 gp.2 h]
    have ihr := ih { c with stuckTo := (specStick c.stuckTo (choose gp.1 gp.2)).1 } h
    exact ⟨ihr.1, by simp [ihr.2]⟩

/-- Counterexample to claim C6 as stated: an activation function that
passes the two different non-empty candidates "a" then "b" to
`stickToFirst` in a single evaluation.  The claim's latch semantics
(`specRunScript`) latches the first value "a" and answers `false` for the
differing candidate "b", but the source's `stickToFirst` reads the
`stuckTo` snapshot taken at the start of the evaluation, so the second
call overwrites the latch with "b" and returns `true`. -/
theorem c6_counterexample :
    ((activateContainer cDouble (JVal.obj 0) []).1.stuckTo,
      (activateContainer cDouble (JVal.obj 0) []).2)
        = ((some "b" : Option String), true)
    ∧ specRunScript
        (ActScript.call (some "a") (fun _ => ActScript.call (some "b") ActScript.done)) none
        = ((some "a" : Option String), false) := by
  constructor
  · rfl
  · rfl

/-- Claim C6 as amended: each `stickToFirst` call latches and answers
against the `stuckTo` snapshot taken when its activation evaluation began,
so when the activation function makes (at most) one `stickToFirst` call
per evaluation, the claimed first-claim-wins semantics holds exactly
across every sequence of evaluations — the first non-empty candidate is
latched, later evaluations are active exactly when their candidate equals
the latched value — and a container without an `activationFn` is always
active and left unchanged. -/
theorem c6_latch_amended (choose : JVal → Props → Option String) (c : Container)
    (inputs : List (JVal × Props))
    (hact : c.activationFn = some (fun g p => ActScript.call (choose g p) ActScript.done)) :
    (iterateActivate c inputs).1.stuckTo = (evalSeqSpec choose inputs c.stuckTo).1
    ∧ (iterateActivate c inputs).2 = (evalSeqSpec choose inputs c.stuckTo).2
    ∧ (∀ (c2 : Container) (g : JVal) (p : Props),
        c2.activationFn = none → activateContainer c2 g p = (c2, true)) := by
  refine ⟨(iterate_single_call choose inputs c hact).1,
    (iterate_single_call choose inputs c hact).2, ?_⟩
  intro c2 g p h2
  unfold activateContainer
  rw [h2]

/-- Witness for C6 (amended): the container claims "chat-1" on the first
evaluation, is inactive for "chat-2", and active again for "chat-1". -/
theorem c6_latch_amended_witness :
    (iterateActivate cW [(JVal.obj 1, []), (JVal.obj 2, []), (JVal.obj 1, [])]).1.stuckTo
        = some "chat-1"
    ∧ (iterateActivate cW [(JVal.obj 1, []), (JVal.obj 2, []), (JVal.obj 1, [])]).2
        = [true, false, true] := by
  have h := c6_latch_amended chooseW cW
    [(JVal.obj 1, []), (JVal.obj 2, []), (JVal.obj 1, [])] rfl
  exact ⟨h.1.trans (by decide), h.2.1.trans (by decide)⟩

lemma execHandlers_append (name : String) (p : Option Nat) (o : ActionOptions) :
    ∀ (hs : List Handler) (idx : Nat) (s : Sys),
      ∃ newCalls, (execHandlers name p o hs idx s).1.actionQueue
        = s.actionQueue ++ newCalls := by
  intro hs
  induction hs with
  | nil => intro idx s; exact ⟨[], by simp [execHandlers]⟩
  | cons h2 rest ih =>
    intro idx s
    rcases hr : h2.run s.currentGlobal p with ⟨calls, out⟩
    simp only [execHandlers, hr]
    cases out with
    | thrown => exact ⟨calls, rfl⟩
    | void =>
      obtain ⟨nc, hnc⟩ := ih (idx + 1)
        { s with actionQueue := s.actionQueue ++ calls,
                 events := s.events ++ [Event.ranHandler name idx] }
      exact ⟨calls ++ nc, by rw [hnc]; simp⟩
    | thenable =>
      obtain ⟨nc, hnc⟩ := ih (idx + 1)
        { s with actionQueue := s.actionQueue ++ calls,
                 events := s.events ++ [Event.ranHandler name idx] }
      exact ⟨calls ++ nc, by rw [hnc]; simp⟩
    | newState g2 =>
      obtain ⟨nc, hnc⟩ := ih (idx + 1) (setUntypedGlobal g2 o
        { s with actionQueue := s.actionQueue ++ calls,
                 events := s.events ++ [Event.ranHandler name idx] })
      refine ⟨calls ++ nc, ?_⟩
      rw [hnc, setUntypedGlobal_actionQueue]
      simp

lemma execHandlers_appendedCalls (name : String) (p : Option Nat) (o : ActionOptions)
    (hs : List Handler) (idx : Nat) (s : Sys) :
    (execHandlers name p o hs idx s).1.actionQueue
      = s.actionQueue ++ appendedCalls s (execHandlers name p o hs idx s).1 := by
  obtain ⟨nc, hnc⟩ := execHandlers_append name p o hs idx s
  unfold appendedCalls
  rw [hnc, List.drop_left]

/-- Claim C2 — re-entrant dispatch is FIFO via the single running drain.
Running the front queue item's handlers only appends the re-entrant
dispatches to the queue (never drains them), and the drain loop then
continues — the same loop, one fuel step down, no nested drain — on the
old tail followed by the appended calls.  Concretely, dispatching A (whose
first handler synchronously dispatches B, and which has a second handler)
runs A's two handlers to completion before B's handler, ends with an empty
queue, and runs each exactly once. -/
theorem c2_reentrant_fifo (reg : HandlerRegistry) (fuel : Nat) (s : Sys)
    (c : DispatchCall) (rest : List DispatchCall)
    (hq : s.actionQueue = c :: rest)
    (hnt : (execHandlers c.name c.payload c.options (reg c.name) 0 s).2 = false) :
    (execHandlers c.name c.payload c.options (reg c.name) 0 s).1.actionQueue
        = (c :: rest)
            ++ appendedCalls s (execHandlers c.name c.payload c.options (reg c.name) 0 s).1
    ∧ drainLoop reg (fuel + 1) s
        = drainLoop reg fuel
            { (execHandlers c.name c.payload c.options (reg c.name) 0 s).1 with
              actionQueue :=
                rest ++ appendedCalls s
                  (execHandlers c.name c.payload c.options (reg c.name) 0 s).1 }
    ∧ (handleAction regAB 3 callA initialSys).map
          (fun p => (p.1.events, p.1.actionQueue, p.2))
        = some ([Event.ranHandler "A" 0, Event.ranHandler "A" 1, Event.ranHandler "B" 0],
            [], false) := by
  have hap := execHandlers_appendedCalls c.name c.payload c.options (reg c.name) 0 s
  have hq2 : (execHandlers c.name c.payload c.options (reg c.name) 0 s).1.actionQueue
      = c :: (rest
          ++ appendedCalls s (execHandlers c.name c.payload c.options (reg c.name) 0 s).1) := by
    rw [hap, hq]
    simp
  refine ⟨by rw [hap, hq], ?_, by decide⟩
  simp only [drainLoop, hq]
  rw [if_neg (by simp [hnt]), hq2]
  simp

/-- Witness for C2: the drain-step equation at the concrete one-element
queue holding the dispatch of A. -/
theorem c2_reentrant_fifo_witness :
    (execHandlers callA.name callA.payload callA.options (regAB callA.name) 0 sQ).1.actionQueue
        = (callA :: [])
            ++ appendedCalls sQ
              (execHandlers callA.name callA.payload callA.options (regAB callA.name) 0 sQ).1
    ∧ drainLoop regAB (2 + 1) sQ
        = drainLoop regAB 2
            { (execHandlers callA.name callA.payload callA.options (regAB callA.name) 0 sQ).1 with
              actionQueue :=
                [] ++ appendedCalls sQ
                  (execHandlers callA.name callA.payload callA.options (regAB callA.name) 0 sQ).1 } := by
  have h := c2_reentrant_fifo regAB 2 sQ callA [] rfl (by decide)
  exact ⟨h.1, h.2.1⟩

/-- Claim C3 — the action queue is reset to empty whenever a drain
terminates, throwing handler or not, so a subsequent dispatch starts from
an empty queue.  Concretely: dispatching A (whose handler dispatches B and
then throws) ends with the exception reported to the caller, an empty
queue, and B never run; a subsequent dispatch of B then behaves exactly as
from a clean dispatcher. -/
theorem c3_queue_reset (reg : HandlerRegistry) (fuel : Nat) (c : DispatchCall)
    (s : Sys) (r : Sys × Bool)
    (hq : s.actionQueue = [])
    (hr : handleAction reg fuel c s = some r) :
    r.1.actionQueue = []
    ∧ ((handleAction regT 1 callA initialSys).map
          (fun p => (p.1.events, p.1.actionQueue, p.2))
        = some ([Event.ranHandler "A" 0], [], true))
    ∧ ((handleAction regT 1 callA initialSys).bind
          (fun p => (handleAction regT 3 callB p.1).map
            (fun q => (q.1.events, q.1.actionQueue, q.2)))
        = some ([Event.ranHandler "A" 0, Event.ranHandler "B" 0], [], false)) := by
  refine ⟨?_, by decide, by decide⟩
  unfold handleAction at hr
  rw [hq] at hr
  simp only [List.nil_append, List.length_cons, List.length_nil] at hr
  rw [if_pos trivial] at hr
  cases hd : drainLoop reg fuel { s with actionQueue := [c] } with
  | none => rw [hd] at hr; cases hr
  | some r2 =>
    rw [hd] at hr
    cases hr
    rfl

/-- Witness for C3: a dispatch from an empty queue (empty registry, enough
fuel) terminates with the queue empty. -/
theorem c3_queue_reset_witness : initialSys.actionQueue = ([] : List DispatchCall) :=
  (c3_queue_reset emptyRegistry 2 callA initialSys (initialSys, false) rfl rfl).1

lemma range_map_shift (name : String) (idx n : Nat) :
    (List.range (n + 1)).map (fun j => Event.ranHandler name (idx + j))
      = Event.ranHandler name idx
          :: (List.range n).map (fun j => Event.ranHandler name (idx + 1 + j)) := by
  have hcomp : (fun j => Event.ranHandler name (idx + j)) ∘ Nat.succ
      = fun j => Event.ranHandler name (idx + 1 + j) := by
    funext j
    simp only [Function.comp]
    have : idx + Nat.succ j = idx + 1 + j := by omega
    rw [this]
  rw [List.range_succ_eq_map, List.map_cons, List.map_map, hcomp, Nat.add_zero]

lemma execHandlers_noThrow_char (name : String) (p : Option Nat) (o : ActionOptions) :
    ∀ (hs : List Handler) (idx : Nat) (s : Sys),
      (∀ h2 ∈ hs, ∀ g2, (h2.run g2 p).2 ≠ HOutcome.thrown) →
      (execHandlers name p o hs idx s).2 = false
      ∧ (execHandlers name p o hs idx s).1.events.filter isRanEvent
          = s.events.filter isRanEvent
              ++ (List.range hs.length).map (fun j => Event.ranHandler name (idx + j))
      ∧ (execHandlers name p o hs idx s).1.currentGlobal
          = hs.foldl (fun g2 h2 =>
              match (h2.run g2 p).2 with
              | HOutcome.newState gn => replacedGlobal g2 gn
              | _ => g2) s.currentGlobal := by
  intro hs
  induction hs with
  | nil =>
    intro idx s h
    refine ⟨rfl, ?_, rfl⟩
    show s.events.filter isRanEvent
      = s.events.filter isRanEvent
          ++ (List.range 0).map (fun j => Event.ranHandler name (idx + j))
    simp
  | cons h2 rest ih =>
    intro idx s h
    have hh : ∀ g2, (h2.run g2 p).2 ≠ HOutcome.thrown :=
      h h2 (List.mem_cons_self h2 rest)
    have hrest : ∀ h3 ∈ rest, ∀ g2, (h3.run g2 p).2 ≠ HOutcome.thrown :=
      fun h3 hm => h h3 (List.mem_cons_of_mem h2 hm)
    rcases hr : h2.run s.currentGlobal p with ⟨calls, out⟩
    simp only [execHandlers, hr, List.length_cons, List.foldl_cons]
    cases out with
    | thrown =>
      exact absurd (by rw [hr]) (hh s.currentGlobal)
    | void =>
      have ihr := ih (idx + 1)
        { s with actionQueue := s.actionQueue ++ calls,
                 events := s.events ++ [Event.ranHandler name idx] } hrest
      refine ⟨ihr.1, ?_, ?_⟩
      · rw [ihr.2.1, range_map_shift]
        simp [List.filter_append, isRanEvent]
      · rw [ihr.2.2]
    | thenable =>
      have ihr := ih (idx + 1)
        { s with actionQueue := s.actionQueue ++ calls,
                 events := s.events ++ [Event.ranHandler name idx] } hrest
      refine ⟨ihr.1, ?_, ?_⟩
      · rw [ihr.2.1, range_map_shift]
        simp [List.filter_append, isRanEvent]
      · rw [ihr.2.2]
    | newState gn =>
      have ihr := ih (idx + 1) (setUntypedGlobal gn o
        { s with actionQueue := s.actionQueue ++ calls,
                 events := s.events ++ [Event.ranHandler name idx] }) hrest
      refine ⟨ihr.1, ?_, ?_⟩
      · rw [ihr.2.1, setUntypedGlobal_filter_ran, range_map_shift]
        simp [List.filter_append, isRanEvent]
      · rw [ihr.2.2, setUntypedGlobal_currentGlobal]

/-- Claim C8 — handler-result processing.  In a dispatch whose handlers do
not throw: every registered handler runs, in registration order, each
against the then-current state (the final state is the left fold of the
replace outcomes over the handler list); a single handler returning a new
state applies it through the replace operation (`setUntypedGlobal`) with
the dispatch's options passed through; and a single handler returning no
value or a thenable leaves the whole module state untouched apart from the
queued re-entrant dispatches and the trace entry — no synchronous state
application. -/
theorem c8_handler_results :
    (∀ (name : String) (p : Option Nat) (o : ActionOptions) (hs : List Handler)
        (idx : Nat) (s : Sys),
      (∀ h2 ∈ hs, ∀ g2, (h2.run g2 p).2 ≠ HOutcome.thrown) →
      (execHandlers name p o hs idx s).2 = false
      ∧ (execHandlers name p o hs idx s).1.events.filter isRanEvent
          = s.events.filter isRanEvent
              ++ (List.range hs.length).map (fun j => Event.ranHandler name (idx + j))
      ∧ (execHandlers name p o hs idx s).1.currentGlobal
          = hs.foldl (fun g2 h2 =>
              match (h2.run g2 p).2 with
              | HOutcome.newState gn => replacedGlobal g2 gn
              | _ => g2) s.currentGlobal)
    ∧ (∀ (name : String) (p : Option Nat) (o : ActionOptions) (idx : Nat)
        (h2 : Handler) (s : Sys) (calls : List DispatchCall) (gn : JVal),
      h2.run s.currentGlobal p = (calls, HOutcome.newState gn) →
      execHandlers name p o [h2] idx s
        = (setUntypedGlobal gn o
            { s with actionQueue := s.actionQueue ++ calls,
                     events := s.events ++ [Event.ranHandler name idx] }, false))
    ∧ (∀ (name : String) (p : Option Nat) (o : ActionOptions) (idx : Nat)
        (h2 : Handler) (s : Sys) (calls : List DispatchCall) (out : HOutcome),
      h2.run s.currentGlobal p = (calls, out) →
      (out = HOutcome.void ∨ out = HOutcome.thenable) →
      execHandlers name p o [h2] idx s
        = ({ s with actionQueue := s.actionQueue ++ calls,
                    events := s.events ++ [Event.ranHandler name idx] }, false)) := by
  refine ⟨fun name p o hs idx s h => execHandlers_noThrow_char name p o hs idx s h, ?_, ?_⟩
  · intro name p o idx h2 s calls gn hrun
    simp only [execHandlers, hrun]
  · intro name p o idx h2 s calls out hrun hskip
    rcases hskip with rfl | rfl <;> simp only [execHandlers, hrun]

/-- Witness for C8: a single handler returning object 2 as the next state
makes the dispatch end with that state, without a throw. -/
theorem c8_handler_results_witness :
    (execHandlers "A" none ⟨false, false, false⟩ [hSet] 0 initialSys).1.currentGlobal
        = JVal.obj 2
    ∧ (execHandlers "A" none ⟨false, false, false⟩ [hSet] 0 initialSys).2 = false := by
  have h := c8_handler_results.1 "A" none ⟨false, false, false⟩ [hSet] 0 initialSys
    (by intro h2 hm g2 h3
        rcases List.mem_singleton.mp hm with rfl
        simp [hSet] at h3)
  exact ⟨h.2.2.trans (by decide), h.1⟩

lemma set_nonurgent (s : Sys) (g : JVal) (hobj : isObjectJ g = true)
    (hne : g ≠ s.currentGlobal) :
    setUntypedGlobal g ⟨false, false, false⟩ s
      = { s with currentGlobal := g, pendingTick := true } := by
  have hguard : (isObjectJ g && g != s.currentGlobal) = true := by
    simp [hobj, bne_iff_ne.mpr hne]
  unfold setUntypedGlobal
  rw [if_pos hguard]
  rfl

lemma set_urgent (s : Sys) (g : JVal) (o : ActionOptions) (hobj : isObjectJ g = true)
    (hne : g ≠ s.currentGlobal) (ho : o.forceOnHeavyAnimation = true)
    (hs2 : o.forceSyncOnIOs = false) :
    setUntypedGlobal g o s
      = { s with currentGlobal := g, forceOnHeavyAnimation := true,
                 pendingTick := true } := by
  have hguard : (isObjectJ g && g != s.currentGlobal) = true := by
    simp [hobj, bne_iff_ne.mpr hne]
  unfold setUntypedGlobal
  rw [if_pos hguard, if_neg (by simp [hs2]), if_pos ho]
  rfl

lemma tick_defer (s : Sys) (hp : s.pendingTick = true)
    (hflag : s.forceOnHeavyAnimation = false) (hbusy : s.gateBusy = true) :
    tickEnd s = { s with pendingTick := false, onceIdle := true } := by
  unfold tickEnd
  rw [if_pos hp]
  unfold runCallbacks
  rw [if_neg (by simp [hflag]), if_pos (by simp [hbusy])]

lemma tick_pass (s : Sys) (hp : s.pendingTick = true)
    (hflag : s.forceOnHeavyAnimation = false) (hfree : s.gateBusy = false) :
    tickEnd s = runPass { s with pendingTick := false } := by
  unfold tickEnd
  rw [if_pos hp]
  unfold runCallbacks
  rw [if_neg (by simp [hflag]), if_neg (by simp [hfree])]

lemma tick_force (s : Sys) (hp : s.pendingTick = true)
    (hflag : s.forceOnHeavyAnimation = true) :
    tickEnd s = runPass { s with pendingTick := false, forceOnHeavyAnimation := false } := by
  unfold tickEnd
  rw [if_pos hp]
  unfold runCallbacks
  rw [if_pos (by simp [hflag])]

lemma gateIdle_once (s : Sys) (ho : s.onceIdle = true) :
    gateIdle s
      = { s with gateBusy := false, onceIdle := false, pendingTick := true } := by
  unfold gateIdle
  rw [if_pos ho]
  rfl

/-- Counterexample to claim C7 as stated: in the initial module state the
one-shot override flag starts `true`, so with the gate busy a replace
without `forceOnHeavyAnimation` still runs the recompute pass at the next
flush (and registers nothing for gate idle), contradicting "a state
replace without forceOnHeavyAnimation does not run a recompute pass" while
the gate is busy. -/
theorem c7_counterexample :
    ((tickEnd (setUntypedGlobal (JVal.obj 1) ⟨false, false, false⟩ sBusy)).events.count
        Event.passRan ≠ 0)
    ∧ (tickEnd (setUntypedGlobal (JVal.obj 1) ⟨false, false, false⟩ sBusy)).onceIdle
        = false := by
  decide

/-- Claim C7 as amended: provided no one-shot heavy-animation override is
pending (the flag starts `true`, so the first-ever flush always proceeds),
a non-urgent replace while the gate is busy changes no trace, only sets
the pending flush; the flush then defers, registering the one-shot idle
callback; once the gate reports idle the re-registered flush runs the pass
(one more pass event).  An urgent (`forceOnHeavyAnimation`) replace runs
the pass at its flush without waiting for the gate to become idle, and
consumes the one-shot override, so it applies to exactly one pass: a
following non-urgent replace is deferred again. -/
theorem c7_deferral_amended (s : Sys) (g : JVal)
    (hobj : isObjectJ g = true) (hne : g ≠ s.currentGlobal)
    (hflag : s.forceOnHeavyAnimation = false) (hbusy : s.gateBusy = true) :
    (setUntypedGlobal g ⟨false, false, false⟩ s).events = s.events
    ∧ (setUntypedGlobal g ⟨false, false, false⟩ s).pendingTick = true
    ∧ (tickEnd (setUntypedGlobal g ⟨false, false, false⟩ s)).events = s.events
    ∧ (tickEnd (setUntypedGlobal g ⟨false, false, false⟩ s)).onceIdle = true
    ∧ (tickEnd (gateIdle (tickEnd (setUntypedGlobal g ⟨false, false, false⟩ s)))).events.count
          Event.passRan = s.events.count Event.passRan + 1
    ∧ (∀ o : ActionOptions, o.forceOnHeavyAnimation = true → o.forceSyncOnIOs = false →
        (tickEnd (setUntypedGlobal g o s)).events.count Event.passRan
            = s.events.count Event.passRan + 1
        ∧ (tickEnd (setUntypedGlobal g o s)).forceOnHeavyAnimation = false
        ∧ (∀ g2 : JVal, isObjectJ g2 = true →
            g2 ≠ (tickEnd (setUntypedGlobal g o s)).currentGlobal →
            (tickEnd (setUntypedGlobal g2 ⟨false, false, false⟩
                (tickEnd (setUntypedGlobal g o s)))).events.count Event.passRan
              = (tickEnd (setUntypedGlobal g o s)).events.count Event.passRan)) := by
  have e1 := set_nonurgent s g hobj hne
  have e2 : tickEnd { s with currentGlobal := g, pendingTick := true }
      = { s with currentGlobal := g, pendingTick := false, onceIdle := true } :=
    (tick_defer { s with currentGlobal := g, pendingTick := true } rfl hflag hbusy).trans rfl
  have e3 : gateIdle { s with currentGlobal := g, pendingTick := false, onceIdle := true }
      = { s with currentGlobal := g, pendingTick := true, onceIdle := false, gateBusy := false } :=
    (gateIdle_once { s with currentGlobal := g, pendingTick := false, onceIdle := true } rfl).trans rfl
  have e4 : tickEnd { s with currentGlobal := g, pendingTick := true, onceIdle := false, gateBusy := false }
      = runPass { s with currentGlobal := g, pendingTick := false, onceIdle := false, gateBusy := false } :=
    (tick_pass { s with currentGlobal := g, pendingTick := true, onceIdle := false, gateBusy := false }
      rfl hflag rfl).trans rfl
  refine ⟨by rw [e1], by rw [e1], by rw [e1, e2], by rw [e1, e2], ?_, ?_⟩
  · rw [e1, e2, e3, e4, runPass_count_passRan]
  · intro o ho hs2
    have f1 := set_urgent s g o hobj hne ho hs2
    have f2 : tickEnd { s with currentGlobal := g, forceOnHeavyAnimation := true, pendingTick := true }
        = runPass { s with currentGlobal := g, forceOnHeavyAnimation := false, pendingTick := false } :=
      (tick_force { s with currentGlobal := g, forceOnHeavyAnimation := true, pendingTick := true }
        rfl rfl).trans rfl
    refine ⟨by rw [f1, f2, runPass_count_passRan], by rw [f1, f2]; simp, ?_⟩
    intro g2 hobj2 hne2
    rw [f1, f2] at hne2 ⊢
    have u1 := set_nonurgent (runPass { s with currentGlobal := g, forceOnHeavyAnimation := false, pendingTick := false }) g2 hobj2 hne2
    rw [u1, tick_defer { runPass { s with currentGlobal := g, forceOnHeavyAnimation := false, pendingTick := false } with currentGlobal := g2, pendingTick := true } rfl rfl hbusy]

/-- Witness for C7 (amended) at the concrete busy/no-override state. -/
theorem c7_deferral_amended_witness :
    (tickEnd (setUntypedGlobal (JVal.obj 1) ⟨false, false, false⟩ sBusyNoForce)).events
        = sBusyNoForce.events
    ∧ (tickEnd (setUntypedGlobal (JVal.obj 1) ⟨false, false, false⟩ sBusyNoForce)).onceIdle
        = true
    ∧ (tickEnd (gateIdle (tickEnd (setUntypedGlobal (JVal.obj 1) ⟨false, false, false⟩
          sBusyNoForce)))).events.count Event.passRan
        = sBusyNoForce.events.count Event.passRan + 1
    ∧ (tickEnd (setUntypedGlobal (JVal.obj 1) ⟨true, false, false⟩ sBusyNoForce)).events.count
          Event.passRan
        = sBusyNoForce.events.count Event.passRan + 1 := by
  have h := c7_deferral_amended sBusyNoForce (JVal.obj 1) (by decide) (by decide) rfl rfl
  have h6 := h.2.2.2.2.2 ⟨true, false, false⟩ rfl rfl
  exact ⟨h.2.2.1, h.2.2.2.1, h.2.2.2.2.1, h6.1⟩

end TeactN
